import Mathlib

/-!
Shallow embedding of the spacetimeripple repository: the `RippleManager`
class of src/main.js (a fixed-capacity circular pool of ripple records with
rate-limited insertion and an aging/compaction pass) and the fragment-shader
math of src/shaders/wavy-grid.wgsl (per-ripple contribution and grid
compositing).  Machine floating point is modelled by exact rationals; the
transcendental GPU primitives sin, exp and sqrt are taken as function
parameters constrained only by the properties the theorems need.
-/

namespace SpacetimeRipple

/-- One slot of the `this.ripples` pool in `RippleManager` (main.js). -/
structure Ripple where
  x : ℚ
  y : ℚ
  startTime : ℚ
  strength : ℚ
  active : Bool
deriving DecidableEq, Repr

/-- One 4-float entry of `this.rippleData` / the WGSL `RippleData` struct:
`[x, y, strength, startTime]`. -/
structure RippleData where
  position : ℚ × ℚ
  strength : ℚ
  startTime : ℚ
deriving DecidableEq, Repr

/-- The mutable state of `RippleManager` (main.js, constructor). -/
structure RippleManager where
  ripples : List Ripple
  nextRippleIndex : ℕ
  lastRippleTime : ℚ
  rippleData : List RippleData
  activeRippleCount : ℕ
deriving DecidableEq, Repr

def maxRipples : ℕ := 128

def minRippleInterval : ℚ := 25

def maxAge : ℚ := 2

/-- `STRENGTH_THRESHOLD` in `RippleManager.update`. -/
def strengthThreshold : ℚ := 1/100

/-- A freshly constructed `RippleManager` (all pool slots zeroed and
inactive, cursor 0, `lastRippleTime = 0`, data buffer zeroed). -/
def initManager : RippleManager :=
  { ripples := List.replicate maxRipples ⟨0, 0, 0, 0, false⟩
    nextRippleIndex := 0
    lastRippleTime := 0
    rippleData := List.replicate maxRipples ⟨(0, 0), 0, 0⟩
    activeRippleCount := 0 }

/-- `RippleManager.addRipple(x, y, timestamp)` (main.js lines 97-113). -/
def addRipple (s : RippleManager) (x y ts : ℚ) : RippleManager :=
  if ts - s.lastRippleTime < minRippleInterval then s
  else
    { s with
      ripples := s.ripples.set s.nextRippleIndex ⟨x, y, ts / 1000, 1, true⟩
      nextRippleIndex := (s.nextRippleIndex + 1) % maxRipples
      lastRippleTime := ts }

/-- The strength assigned to a live record of age `age` by `update`:
`1.0 - (age / this.maxAge)`. -/
def strengthFn (age : ℚ) : ℚ := 1 - age / maxAge

/-- The body of the per-slot loop of `RippleManager.update` (main.js lines
121-149), at current time `t` (seconds): the updated record, together with
the dense-buffer entry appended for it (if any). -/
def stepRipple (t : ℚ) (r : Ripple) : Ripple × Option RippleData :=
  if r.active = false then (r, none)
  else
    let age := t - r.startTime
    if maxAge ≤ age then ({ r with active := false, strength := 0 }, none)
    else
      let s := strengthFn age
      if strengthThreshold < s then
        ({ r with strength := s }, some ⟨(r.x, r.y), s, r.startTime⟩)
      else
        ({ r with strength := s, active := false }, none)

/-- The whole per-slot loop of `update`, in pool-slot order: the updated
pool, and the dense entries in the order they were written. -/
def tickPass (t : ℚ) : List Ripple → List Ripple × List RippleData
  | [] => ([], [])
  | r :: rs =>
    let p := stepRipple t r
    let rest := tickPass t rs
    (p.1 :: rest.1, p.2.toList ++ rest.2)

/-- The clear loop of `update` (main.js lines 152-155): only the strength
field of a stale buffer entry is zeroed. -/
def zeroStrength (d : RippleData) : RippleData := { d with strength := 0 }

/-- `RippleManager.update(timestamp)` (main.js lines 115-161).  The returned
`(data, activeCount)` pair is the `rippleData`/`activeRippleCount` fields of
the resulting state. -/
def update (s : RippleManager) (ts : ℚ) : RippleManager :=
  let t := ts / 1000
  let p := tickPass t s.ripples
  let count := p.2.length
  { s with
    ripples := p.1
    rippleData := p.2 ++ (s.rippleData.drop count).map zeroStrength
    activeRippleCount := count }

/-- The ledger states reachable from a fresh `RippleManager` by any
sequence of `addRipple` and `update` calls. -/
inductive Reachable : RippleManager → Prop
  | init : Reachable initManager
  | insert (s : RippleManager) (x y ts : ℚ) : Reachable s → Reachable (addRipple s x y ts)
  | tick (s : RippleManager) (ts : ℚ) : Reachable s → Reachable (update s ts)

/-- A sequence of `addRipple` calls, each item an `(x, y, timestamp)` triple. -/
def insertSeq (s : RippleManager) : List (ℚ × ℚ × ℚ) → RippleManager
  | [] => s
  | item :: rest => insertSeq (addRipple s item.1 item.2.1 item.2.2) rest

/-- Every insert of the sequence passes the rate-limit guard of `addRipple`
(its timestamp is at least `minRippleInterval` past the running
`lastRippleTime`), so none is dropped. -/
def AcceptedSeq (s : RippleManager) : List (ℚ × ℚ × ℚ) → Prop
  | [] => True
  | item :: rest => minRippleInterval ≤ item.2.2 - s.lastRippleTime ∧
      AcceptedSeq (addRipple s item.1 item.2.1 item.2.2) rest

/-- The pool record an accepted `addRipple (x, y, ts)` writes. -/
def freshRipple (item : ℚ × ℚ × ℚ) : Ripple :=
  ⟨item.1, item.2.1, item.2.2 / 1000, 1, true⟩

/-! Constants of src/shaders/wavy-grid.wgsl (decimal literals read as exact
rationals). -/

def PI : ℚ := 3.14159265359

def GRID_VERTICAL_SIZE : ℚ := 15

def GRID_HORIZONTAL_SIZE : ℚ := 20

def LINE_WIDTH : ℚ := 0.015

def RIPPLE_SPEED : ℚ := 0.1

def RIPPLE_AMPLITUDE : ℚ := 0.02

def MAX_RIPPLE_RADIUS : ℚ := 0.3

def MIN_RIPPLE_RADIUS : ℚ := 0.02

def RIPPLE_EDGE_SHARPNESS : ℚ := 3

/-- WGSL `clamp(e, low, high)`. -/
def clampQ (e low high : ℚ) : ℚ := min (max e low) high

/-- WGSL `smoothstep(e0, e1, x)`: the Hermite polynomial of the clamped
normalized argument. -/
def smoothstep (e0 e1 x : ℚ) : ℚ :=
  let t := clampQ ((x - e0) / (e1 - e0)) 0 1
  t * t * (3 - 2 * t)

/-- The aspect-corrected Euclidean distance computed at the top of
`calculateRipple` (wavy-grid.wgsl lines 118-121); `sqrtF` is the GPU square
root. -/
def rippleDist (sqrtF : ℚ → ℚ) (aspect : ℚ) (uv pos : ℚ × ℚ) : ℚ :=
  sqrtF ((uv.1 * aspect - pos.1 * aspect) ^ 2 + (uv.2 - pos.2) ^ 2)

/-- The expanding wavefront radius `min(age * RIPPLE_SPEED,
MAX_RIPPLE_RADIUS)` (wavy-grid.wgsl lines 125-126). -/
def rippleRadius (time startTime : ℚ) : ℚ :=
  min ((time - startTime) * RIPPLE_SPEED) MAX_RIPPLE_RADIUS

/-- `calculateRipple(uv, ripple)` (wavy-grid.wgsl lines 116-148); `sinF`,
`expF` and `sqrtF` stand for the GPU `sin`, `exp` and `sqrt` primitives. -/
def calculateRipple (sinF expF sqrtF : ℚ → ℚ) (time aspect : ℚ) (uv : ℚ × ℚ)
    (ripple : RippleData) : ℚ :=
  let dist := rippleDist sqrtF aspect uv ripple.position
  let age := time - ripple.startTime
  let radius := rippleRadius time ripple.startTime
  if radius < dist ∨ dist < MIN_RIPPLE_RADIUS ∨ ripple.strength ≤ 0 then 0
  else
    let normalizedDist := (dist - MIN_RIPPLE_RADIUS) / (radius - MIN_RIPPLE_RADIUS)
    let phase := (normalizedDist * 2 - age * 2) * PI
    let edgeFalloff := 1 - smoothstep (radius * 0.7) radius dist
    let startFalloff := smoothstep MIN_RIPPLE_RADIUS (MIN_RIPPLE_RADIUS * 2) dist
    sinF phase * ripple.strength * RIPPLE_AMPLITUDE * edgeFalloff * startFalloff *
      expF (-dist * RIPPLE_EDGE_SHARPNESS)

/-- The ripple loop of `fragmentMain` (wavy-grid.wgsl lines 164-168): the sum
of `calculateRipple` over the ripple buffer.  It takes only the buffer — the
`activeRippleCount` uniform is never read by the shader. -/
def totalRippleDistortion (sinF expF sqrtF : ℚ → ℚ) (time aspect : ℚ) (uv : ℚ × ℚ)
    (rs : List RippleData) : ℚ :=
  (rs.map (calculateRipple sinF expF sqrtF time aspect uv)).sum

/-- WGSL `fract`. -/
def fract (x : ℚ) : ℚ := x - ⌊x⌋

/-- `gridUV` of `fragmentMain` (wavy-grid.wgsl lines 176-180), as a function
of the already-distorted sample coordinate. -/
def gridUV (duv : ℚ × ℚ) : ℚ × ℚ :=
  (fract (duv.1 * GRID_HORIZONTAL_SIZE), fract (duv.2 * GRID_VERTICAL_SIZE))

/-- `distToLine` of `fragmentMain` (wavy-grid.wgsl lines 183-186): minimum
distance to the nearest cell boundary over both axes. -/
def distToLine (duv : ℚ × ℚ) : ℚ :=
  min (min (gridUV duv).1 (1 - (gridUV duv).1)) (min (gridUV duv).2 (1 - (gridUV duv).2))

/-- `lineIntensity` of `fragmentMain` (wavy-grid.wgsl line 189). -/
def lineIntensity (duv : ℚ × ℚ) : ℚ := smoothstep LINE_WIDTH 0 (distToLine duv)

/-- WGSL `mix(x, y, a)` componentwise on scalars. -/
def mixQ (x y a : ℚ) : ℚ := x * (1 - a) + y * a

def backgroundColor : ℚ × ℚ × ℚ := (0.05, 0.05, 0.15)

def lineColor : ℚ × ℚ × ℚ := (1, 1, 1)

/-- The final color of `fragmentMain` (wavy-grid.wgsl lines 190-194) as a
function of the distorted sample coordinate. -/
def finalColor (duv : ℚ × ℚ) : ℚ × ℚ × ℚ :=
  (mixQ backgroundColor.1 lineColor.1 (lineIntensity duv),
   mixQ backgroundColor.2.1 lineColor.2.1 (lineIntensity duv),
   mixQ backgroundColor.2.2 lineColor.2.2 (lineIntensity duv))

/-! Helper lemmas about the aging/compaction pass. -/

theorem stepRipple_inactive (t : ℚ) (r : Ripple) (h : r.active = false) :
    stepRipple t r = (r, none) := by
  simp [stepRipple, h]

theorem tickPass_fst (t : ℚ) (rs : List Ripple) :
    (tickPass t rs).1 = rs.map fun r => (stepRipple t r).1 := by
  induction rs with
  | nil => rfl
  | cons r rs ih => simp [tickPass, ih]

theorem tickPass_snd (t : ℚ) (rs : List Ripple) :
    (tickPass t rs).2 = rs.filterMap fun r => (stepRipple t r).2 := by
  induction rs with
  | nil => rfl
  | cons r rs ih =>
    cases h : (stepRipple t r).2 <;>
      simp [tickPass, ih, h, List.filterMap_cons]

theorem tickPass_replicate_inactive (t : ℚ) (n : ℕ) (r : Ripple)
    (h : r.active = false) :
    tickPass t (List.replicate n r) = (List.replicate n r, []) := by
  induction n with
  | zero => rfl
  | succ n ih => simp [List.replicate_succ, tickPass, ih, stepRipple_inactive t r h]

theorem stepRipple_idem (t : ℚ) (r : Ripple) :
    stepRipple t (stepRipple t r).1 = stepRipple t r := by
  by_cases ha : r.active = false
  · rw [stepRipple_inactive t r ha, stepRipple_inactive t r ha]
  · by_cases hage : maxAge ≤ t - r.startTime
    · have h1 : stepRipple t r = ({ r with active := false, strength := 0 }, none) := by
        rw [stepRipple, if_neg ha, if_pos hage]
      rw [h1]
      exact stepRipple_inactive t _ rfl
    · by_cases hs : strengthThreshold < strengthFn (t - r.startTime)
      · have h1 : stepRipple t r =
            ({ r with strength := strengthFn (t - r.startTime) },
              some ⟨(r.x, r.y), strengthFn (t - r.startTime), r.startTime⟩) := by
          rw [stepRipple, if_neg ha, if_neg hage, if_pos hs]
        rw [h1, stepRipple]
        simp only [ha, if_false]
        rw [if_neg hage, if_pos hs]
        simp
      · have h1 : stepRipple t r =
            ({ r with strength := strengthFn (t - r.startTime), active := false }, none) := by
          rw [stepRipple, if_neg ha, if_neg hage, if_neg hs]
        rw [h1]
        exact stepRipple_inactive t _ rfl

/-! Helper lemmas about rate-limited insertion. -/

theorem addRipple_accepted (s : RippleManager) (x y ts : ℚ)
    (h : minRippleInterval ≤ ts - s.lastRippleTime) :
    addRipple s x y ts =
      { s with
        ripples := s.ripples.set s.nextRippleIndex ⟨x, y, ts / 1000, 1, true⟩
        nextRippleIndex := (s.nextRippleIndex + 1) % maxRipples
        lastRippleTime := ts } := by
  rw [addRipple, if_neg (not_lt.mpr h)]

/-- Pointwise description of a run of accepted inserts that fits in the free
space to the right of the cursor (no wrap except possibly at the very end):
each insert lands in its own slot, all other slots keep their contents, and
the cursor advances by the length of the run modulo capacity. -/
theorem insertSeq_spec (l : List (ℚ × ℚ × ℚ)) (s : RippleManager)
    (hacc : AcceptedSeq s l) (hlen : s.ripples.length = 128)
    (hcur : s.nextRippleIndex < 128) (hfit : s.nextRippleIndex + l.length ≤ 128) :
    (insertSeq s l).ripples.length = 128 ∧
    (insertSeq s l).nextRippleIndex = (s.nextRippleIndex + l.length) % 128 ∧
    (∀ i, i < l.length →
      (insertSeq s l).ripples[s.nextRippleIndex + i]? = l[i]?.map freshRipple) ∧
    (∀ j, j < 128 → (j < s.nextRippleIndex ∨ s.nextRippleIndex + l.length ≤ j) →
      (insertSeq s l).ripples[j]? = s.ripples[j]?) := by
  induction l generalizing s with
  | nil =>
    refine ⟨hlen, ?_, ?_, ?_⟩
    · simpa [insertSeq] using (Nat.mod_eq_of_lt hcur).symm
    · intro i hi; simp at hi
    · intro j _ _; rfl
  | cons a l ih =>
    obtain ⟨ha, hrest⟩ := hacc
    have hset := addRipple_accepted s a.1 a.2.1 a.2.2 ha
    set s1 := addRipple s a.1 a.2.1 a.2.2 with hs1
    have h1rip : s1.ripples = s.ripples.set s.nextRippleIndex ⟨a.1, a.2.1, a.2.2 / 1000, 1, true⟩ := by
      rw [hset]
    have h1cur : s1.nextRippleIndex = (s.nextRippleIndex + 1) % 128 := by
      rw [hset]; rfl
    have h1len : s1.ripples.length = 128 := by rw [h1rip, List.length_set, hlen]
    have h1lt : s1.nextRippleIndex < 128 := by rw [h1cur]; exact Nat.mod_lt _ (by norm_num)
    have h1fit : s1.nextRippleIndex + l.length ≤ 128 := by
      have := Nat.mod_le (s.nextRippleIndex + 1) 128
      simp only [List.length_cons] at hfit
      omega
    have hstep : insertSeq s (a :: l) = insertSeq s1 l := rfl
    obtain ⟨ihlen, ihcur, ihset, ihunch⟩ := ih s1 hrest h1len h1lt h1fit
    have hcases : s1.nextRippleIndex = s.nextRippleIndex + 1 ∨
        (s.nextRippleIndex = 127 ∧ l.length = 0 ∧ s1.nextRippleIndex = 0) := by
      simp only [List.length_cons] at hfit
      by_cases hc : s.nextRippleIndex + 1 < 128
      · left; rw [h1cur, Nat.mod_eq_of_lt hc]
      · right
        have h127 : s.nextRippleIndex = 127 := by omega
        refine ⟨h127, by omega, ?_⟩
        rw [h1cur, h127]
    refine ⟨hstep ▸ ihlen, ?_, ?_, ?_⟩
    · rw [hstep, ihcur, h1cur, Nat.mod_add_mod]
      congr 1
      simp only [List.length_cons]
      omega
    · intro i hi
      rw [hstep]
      match i with
      | 0 =>
        have hj : (s.nextRippleIndex < s1.nextRippleIndex ∨
            s1.nextRippleIndex + l.length ≤ s.nextRippleIndex) := by
          rcases hcases with h | ⟨h127, hl0, h0⟩
          · left; omega
          · right; omega
        have := ihunch s.nextRippleIndex hcur hj
        rw [Nat.add_zero, this, h1rip,
          List.getElem?_set_self (by rw [hlen]; exact hcur)]
        simp [freshRipple]
      | Nat.succ i =>
        rcases hcases with h | ⟨_, hl0, _⟩
        · have hi' : i < l.length := by
            simpa [Nat.succ_lt_succ_iff] using hi
          have := ihset i hi'
          rw [h] at this
          have harith : s.nextRippleIndex + (i + 1) = s.nextRippleIndex + 1 + i := by omega
          rw [harith, this]
          simp [List.getElem?_cons_succ]
        · omega
    · intro j hj hside
      rw [hstep]
      simp only [List.length_cons] at hside
      have hj' : j < s1.nextRippleIndex ∨ s1.nextRippleIndex + l.length ≤ j := by
        rcases hcases with h | ⟨h127, hl0, h0⟩
        · omega
        · right; omega
      rw [ihunch j hj hj', h1rip, List.getElem?_set_ne (by omega)]

theorem insertSeq_append (l1 l2 : List (ℚ × ℚ × ℚ)) (s : RippleManager) :
    insertSeq s (l1 ++ l2) = insertSeq (insertSeq s l1) l2 := by
  induction l1 generalizing s with
  | nil => rfl
  | cons a l1 ih => simpa [insertSeq] using ih (addRipple s a.1 a.2.1 a.2.2)

theorem acceptedSeq_append (l1 l2 : List (ℚ × ℚ × ℚ)) (s : RippleManager)
    (h : AcceptedSeq s (l1 ++ l2)) :
    AcceptedSeq s l1 ∧ AcceptedSeq (insertSeq s l1) l2 := by
  induction l1 generalizing s with
  | nil => exact ⟨trivial, h⟩
  | cons a l1 ih =>
    obtain ⟨ha, hrest⟩ := h
    obtain ⟨h1, h2⟩ := ih (addRipple s a.1 a.2.1 a.2.2) hrest
    exact ⟨⟨ha, h1⟩, h2⟩

/-- An evenly spaced train of `n` inserts at the origin, `1000` ms apart,
starting `1000` ms after `t0`; used to exhibit a concrete accepted
sequence. -/
def rampItems : ℕ → ℚ → List (ℚ × ℚ × ℚ)
  | 0, _ => []
  | n + 1, t0 => (0, 0, t0 + 1000) :: rampItems n (t0 + 1000)

theorem rampItems_length (n : ℕ) (t0 : ℚ) : (rampItems n t0).length = n := by
  induction n generalizing t0 with
  | zero => rfl
  | succ n ih => simp [rampItems, ih]

theorem rampItems_accepted (n : ℕ) (s : RippleManager) :
    AcceptedSeq s (rampItems n s.lastRippleTime) := by
  induction n generalizing s with
  | zero => trivial
  | succ n ih =>
    refine ⟨?_, ?_⟩
    · show minRippleInterval ≤ s.lastRippleTime + 1000 - s.lastRippleTime
      rw [minRippleInterval]; linarith
    · have hlast : (addRipple s 0 0 (s.lastRippleTime + 1000)).lastRippleTime =
          s.lastRippleTime + 1000 := by
        rw [addRipple_accepted s 0 0 (s.lastRippleTime + 1000)
          (by rw [minRippleInterval]; linarith)]
      have := ih (addRipple s 0 0 (s.lastRippleTime + 1000))
      rwa [hlast] at this

/-- Claim C1: an insert whose timestamp is at least `minRippleInterval` past
the last accepted one overwrites exactly the slot at the write cursor with a
fresh record (strength 1, active, the given position, `startTime =
timestamp/1000`), advances the cursor circularly and updates the last-insert
timestamp (all other state unchanged); consequently after any sequence of
130 accepted inserts from a fresh ledger, slots 0 and 1 hold the records of
inserts 128 and 129 and slot `j` (2 ≤ j < 128) holds the record of insert
`j`: the pool holds exactly the 128 most recent insertions, the oldest two
overwritten. -/
theorem claim1_insert_circular_overwrite :
    (∀ (s : RippleManager) (x y ts : ℚ), minRippleInterval ≤ ts - s.lastRippleTime →
      addRipple s x y ts =
        { s with
          ripples := s.ripples.set s.nextRippleIndex ⟨x, y, ts / 1000, 1, true⟩
          nextRippleIndex := (s.nextRippleIndex + 1) % maxRipples
          lastRippleTime := ts }) ∧
    (∀ l : List (ℚ × ℚ × ℚ), l.length = 130 → AcceptedSeq initManager l →
      (∀ j, j < 2 →
        (insertSeq initManager l).ripples[j]? = l[j + 128]?.map freshRipple) ∧
      (∀ j, 2 ≤ j → j < 128 →
        (insertSeq initManager l).ripples[j]? = l[j]?.map freshRipple)) := by
  constructor
  · exact addRipple_accepted
  · intro l hlen130 hacc
    have hsplit : l.take 128 ++ l.drop 128 = l := List.take_append_drop 128 l
    have hT : (l.take 128).length = 128 := by rw [List.length_take]; omega
    have hD : (l.drop 128).length = 2 := by rw [List.length_drop]; omega
    obtain ⟨hacc1, hacc2⟩ := acceptedSeq_append (l.take 128) (l.drop 128) initManager
      (by rw [hsplit]; exact hacc)
    have hinit_len : initManager.ripples.length = 128 := by
      simp [initManager, maxRipples]
    have hinit_cur : initManager.nextRippleIndex < 128 := by simp [initManager]
    obtain ⟨mlen, mcur, mset, _⟩ := insertSeq_spec (l.take 128) initManager hacc1
      hinit_len hinit_cur (by rw [hT]; simp [initManager])
    have hMcur : (insertSeq initManager (l.take 128)).nextRippleIndex = 0 := by
      rw [mcur, hT]; norm_num [initManager]
    obtain ⟨flen, fcur, fset, funch⟩ := insertSeq_spec (l.drop 128)
      (insertSeq initManager (l.take 128)) hacc2 mlen
      (by rw [hMcur]; norm_num) (by rw [hMcur, hD]; norm_num)
    have hfinal : insertSeq initManager l =
        insertSeq (insertSeq initManager (l.take 128)) (l.drop 128) := by
      conv_lhs => rw [← hsplit]
      rw [insertSeq_append]
    constructor
    · intro j hj
      rw [hfinal]
      have hw := fset j (by rw [hD]; omega)
      rw [hMcur, Nat.zero_add] at hw
      rw [hw, List.getElem?_drop, Nat.add_comm 128 j]
    · intro j hj2 hj128
      rw [hfinal]
      rw [funch j hj128 (Or.inr (by rw [hMcur, hD]; omega))]
      have hw := mset j (by rw [hT]; omega)
      rw [show initManager.nextRippleIndex + j = j from by simp [initManager]] at hw
      rw [hw, List.getElem?_take_of_lt hj128]

/-- Witness for claim C1: the accepted-insert effect instantiated on a fresh
ledger at timestamp 1000, and the 130-insert scenario instantiated on the
concrete evenly spaced train `rampItems 130 0`, sampled at slots 0 and 5. -/
theorem claim1_witness :
    (addRipple initManager (1/2) (1/2) 1000 =
      { initManager with
        ripples := initManager.ripples.set initManager.nextRippleIndex
          ⟨1/2, 1/2, 1000 / 1000, 1, true⟩
        nextRippleIndex := (initManager.nextRippleIndex + 1) % maxRipples
        lastRippleTime := 1000 }) ∧
    (insertSeq initManager (rampItems 130 0)).ripples[0]? =
      (rampItems 130 0)[0 + 128]?.map freshRipple ∧
    (insertSeq initManager (rampItems 130 0)).ripples[5]? =
      (rampItems 130 0)[5]?.map freshRipple := by
  have hacc : AcceptedSeq initManager (rampItems 130 0) :=
    rampItems_accepted 130 initManager
  have hlen : (rampItems 130 0).length = 130 := rampItems_length 130 0
  refine ⟨?_, ?_, ?_⟩
  · exact claim1_insert_circular_overwrite.1 initManager (1/2) (1/2) 1000
      (by norm_num [initManager, minRippleInterval])
  · exact (claim1_insert_circular_overwrite.2 (rampItems 130 0) hlen hacc).1 0
      (by norm_num)
  · exact (claim1_insert_circular_overwrite.2 (rampItems 130 0) hlen hacc).2 5
      (by norm_num) (by norm_num)

/-- Claim C4: an insert arriving less than `minRippleInterval` after the last
accepted insert is dropped and leaves the whole ledger state (pool, cursor,
last-insert timestamp, dense buffer, active count) unchanged. -/
theorem claim4_rate_limited_insert_is_noop (s : RippleManager) (x y ts : ℚ)
    (h : ts - s.lastRippleTime < minRippleInterval) :
    addRipple s x y ts = s := by
  rw [addRipple, if_pos h]

/-- Witness for claim C4: an insert at timestamp 10 on a fresh ledger
(whose `lastRippleTime` is 0) is dropped. -/
theorem claim4_witness : addRipple initManager 0 0 10 = initManager :=
  claim4_rate_limited_insert_is_noop initManager 0 0 10
    (by norm_num [initManager, minRippleInterval])

/-- Claim C2: for an active record, `tick(timestamp)` with `age =
timestamp/1000 - startTime` deactivates and zeroes the record when `age ≥
maxAge`, otherwise sets its strength to the affine value `1 - age/maxAge`
(a strictly decreasing function of age that reaches 0 at `age = maxAge`),
and also deactivates the record when this updated strength is not above the
threshold. -/
theorem claim2_tick_aging (ts : ℚ) (r : Ripple) (hact : r.active = true) :
    (maxAge ≤ ts / 1000 - r.startTime →
      stepRipple (ts / 1000) r = ({ r with active := false, strength := 0 }, none)) ∧
    (ts / 1000 - r.startTime < maxAge →
      (stepRipple (ts / 1000) r).1.strength = strengthFn (ts / 1000 - r.startTime) ∧
      (strengthFn (ts / 1000 - r.startTime) ≤ strengthThreshold →
        (stepRipple (ts / 1000) r).1.active = false)) ∧
    (∀ a1 a2 : ℚ, a1 < a2 → strengthFn a2 < strengthFn a1) ∧
    strengthFn maxAge = 0 := by
  have hact' : ¬r.active = false := by simp [hact]
  refine ⟨?_, ?_, ?_, ?_⟩
  · intro h
    rw [stepRipple, if_neg hact', if_pos h]
  · intro h
    rw [stepRipple, if_neg hact', if_neg (not_le.mpr h)]
    by_cases hs : strengthThreshold < strengthFn (ts / 1000 - r.startTime)
    · rw [if_pos hs]
      exact ⟨rfl, fun hle => absurd hs (not_lt.mpr hle)⟩
    · rw [if_neg hs]
      exact ⟨rfl, fun _ => rfl⟩
  · intro a1 a2 hlt
    rw [strengthFn, strengthFn, maxAge]
    linarith
  · rw [strengthFn, maxAge]
    norm_num

/-- Witness for claim C2: a record born at 0 is deactivated and zeroed by a
tick at 4000 ms (age 4 s), keeps strength `1 - age/maxAge` at 1000 ms, and
`strengthFn` decreases from age 0 to age 1 and is 0 at `maxAge`. -/
theorem claim2_witness :
    stepRipple (4000 / 1000) ⟨0, 0, 0, 1, true⟩ = (⟨0, 0, 0, 0, false⟩, none) ∧
    (stepRipple (1000 / 1000) ⟨0, 0, 0, 1, true⟩).1.strength =
      strengthFn (1000 / 1000 - 0) ∧
    strengthFn 1 < strengthFn 0 ∧
    strengthFn maxAge = 0 := by
  refine ⟨?_, ?_, ?_, ?_⟩
  · exact (claim2_tick_aging 4000 ⟨0, 0, 0, 1, true⟩ rfl).1 (by norm_num [maxAge])
  · exact ((claim2_tick_aging 1000 ⟨0, 0, 0, 1, true⟩ rfl).2.1 (by norm_num [maxAge])).1
  · exact (claim2_tick_aging 0 ⟨0, 0, 0, 1, true⟩ rfl).2.2.1 0 1 (by norm_num)
  · exact (claim2_tick_aging 0 ⟨0, 0, 0, 1, true⟩ rfl).2.2.2

theorem reachable_ripples_length (s : RippleManager) (h : Reachable s) :
    s.ripples.length = 128 := by
  induction h with
  | init => simp [initManager, maxRipples]
  | insert s x y ts _ ih =>
    rw [addRipple]
    split_ifs
    · exact ih
    · simp [List.length_set, ih]
  | tick s ts _ ih =>
    show (tickPass (ts / 1000) s.ripples).1.length = 128
    rw [tickPass_fst, List.length_map, ih]

/-- Claim C3: from any reachable ledger state and any timestamp, the
`(denseArray, activeCount)` produced by `update` satisfies `activeCount ≤
capacity`, the packed prefix is the in-slot-order `filterMap` of the updated
pool (so entries appear in increasing pool-slot order, not in chronological
insertion order), and every dense slot at index ≥ `activeCount` has strength
0. -/
theorem claim3_tick_output_invariants (s : RippleManager) (h : Reachable s) (ts : ℚ) :
    (update s ts).activeRippleCount ≤ maxRipples ∧
    (update s ts).rippleData.take (update s ts).activeRippleCount =
      s.ripples.filterMap (fun r => (stepRipple (ts / 1000) r).2) ∧
    ∀ d ∈ (update s ts).rippleData.drop (update s ts).activeRippleCount,
      d.strength = 0 := by
  have hlen := reachable_ripples_length s h
  have hcount : (update s ts).activeRippleCount =
      (tickPass (ts / 1000) s.ripples).2.length := rfl
  have hdata : (update s ts).rippleData =
      (tickPass (ts / 1000) s.ripples).2 ++
        ((s.rippleData.drop (tickPass (ts / 1000) s.ripples).2.length).map
          zeroStrength) := rfl
  refine ⟨?_, ?_, ?_⟩
  · rw [hcount, tickPass_snd]
    show _ ≤ 128
    calc (s.ripples.filterMap fun r => (stepRipple (ts / 1000) r).2).length
        ≤ s.ripples.length := List.length_filterMap_le _ _
      _ = 128 := hlen
  · rw [hcount, hdata, List.take_left, tickPass_snd]
  · rw [hcount, hdata, List.drop_left]
    intro d hd
    obtain ⟨e, _, he⟩ := List.mem_map.mp hd
    rw [← he]
    rfl

/-- Witness for claim C3: the invariants instantiated at the fresh ledger
(reachable by construction) and timestamp 0. -/
theorem claim3_witness :
    (update initManager 0).activeRippleCount ≤ maxRipples :=
  (claim3_tick_output_invariants initManager Reachable.init 0).1

/-- Claim C6: with no intervening insert, a second `update` at the same
timestamp returns the same dense array contents and the same active count as
the first. -/
theorem claim6_tick_idempotent (s : RippleManager) (ts : ℚ) :
    (update (update s ts) ts).rippleData = (update s ts).rippleData ∧
    (update (update s ts) ts).activeRippleCount = (update s ts).activeRippleCount := by
  have hrip1 : (update s ts).ripples = (tickPass (ts / 1000) s.ripples).1 := rfl
  have hsnd2 : (tickPass (ts / 1000) (tickPass (ts / 1000) s.ripples).1).2 =
      (tickPass (ts / 1000) s.ripples).2 := by
    rw [tickPass_fst, tickPass_snd, List.filterMap_map, tickPass_snd]
    congr 1
    funext r
    exact congrArg Prod.snd (stepRipple_idem (ts / 1000) r)
  have hcount : (update (update s ts) ts).activeRippleCount =
      (update s ts).activeRippleCount := by
    show (tickPass (ts / 1000) (update s ts).ripples).2.length = _
    rw [hrip1, hsnd2]
    rfl
  refine ⟨?_, hcount⟩
  show (tickPass (ts / 1000) (update s ts).ripples).2 ++
      (((update s ts).rippleData.drop
        (tickPass (ts / 1000) (update s ts).ripples).2.length).map zeroStrength) =
    (update s ts).rippleData
  rw [hrip1, hsnd2]
  have hdata1 : (update s ts).rippleData =
      (tickPass (ts / 1000) s.ripples).2 ++
        ((s.rippleData.drop (tickPass (ts / 1000) s.ripples).2.length).map
          zeroStrength) := rfl
  rw [hdata1, List.drop_left, List.map_map,
    show zeroStrength ∘ zeroStrength = zeroStrength from funext fun d => rfl]

/-- A ripple entry with nonpositive strength contributes exactly 0 (the
early-exit guard of `calculateRipple` fires). -/
theorem calculateRipple_nonpos_strength (sinF expF sqrtF : ℚ → ℚ)
    (time aspect : ℚ) (uv : ℚ × ℚ) (ripple : RippleData)
    (h : ripple.strength ≤ 0) :
    calculateRipple sinF expF sqrtF time aspect uv ripple = 0 := by
  simp only [calculateRipple]
  rw [if_pos (Or.inr (Or.inr h))]

/-- Claim C10: for the dense array produced by any `update`, the field
evaluator's sum of `calculateRipple` over the whole buffer equals the sum
over only the first `activeCount` packed entries — trailing slots have
strength 0 and contribute exactly 0, so the stale position/startTime data
there (and the `activeRippleCount` uniform, which `totalRippleDistortion`
does not even take as an input) cannot affect the result. -/
theorem claim10_trailing_slots_inert (sinF expF sqrtF : ℚ → ℚ)
    (time aspect : ℚ) (uv : ℚ × ℚ) (s : RippleManager) (ts : ℚ) :
    totalRippleDistortion sinF expF sqrtF time aspect uv (update s ts).rippleData =
      totalRippleDistortion sinF expF sqrtF time aspect uv
        ((update s ts).rippleData.take (update s ts).activeRippleCount) := by
  have hcount : (update s ts).activeRippleCount =
      (tickPass (ts / 1000) s.ripples).2.length := rfl
  have hdata : (update s ts).rippleData =
      (tickPass (ts / 1000) s.ripples).2 ++
        ((s.rippleData.drop (tickPass (ts / 1000) s.ripples).2.length).map
          zeroStrength) := rfl
  rw [totalRippleDistortion, totalRippleDistortion, hcount, hdata, List.take_left,
    List.map_append, List.sum_append, List.map_map]
  have hz : (((s.rippleData.drop (tickPass (ts / 1000) s.ripples).2.length)).map
      (calculateRipple sinF expF sqrtF time aspect uv ∘ zeroStrength)).sum = 0 := by
    apply List.sum_eq_zero
    intro x hx
    obtain ⟨d, _, hd⟩ := List.mem_map.mp hx
    rw [← hd, Function.comp_apply]
    exact calculateRipple_nonpos_strength sinF expF sqrtF time aspect uv
      (zeroStrength d) (le_of_eq rfl)
  rw [hz, add_zero]

theorem update_activeRippleCount (s : RippleManager) (ts : ℚ) :
    (update s ts).activeRippleCount = (tickPass (ts / 1000) s.ripples).2.length := rfl

theorem update_ripples (s : RippleManager) (ts : ℚ) :
    (update s ts).ripples = (tickPass (ts / 1000) s.ripples).1 := rfl

theorem update_rippleData (s : RippleManager) (ts : ℚ) :
    (update s ts).rippleData = (tickPass (ts / 1000) s.ripples).2 ++
      ((s.rippleData.drop (tickPass (ts / 1000) s.ripples).2.length).map
        zeroStrength) := rfl

/-- Counterexample to claim C5 as stated: on a fresh ledger
(`lastRippleTime = 0`), an insert at timestamp `t = 0` is rate-limit dropped
(`0 - 0 < minRippleInterval`), so the subsequent `tick(0)` reports 0 active
records, not 1. -/
theorem claim5_counterexample :
    (update (addRipple initManager (1/2) (1/2) 0) 0).activeRippleCount = 0 := by
  have h0 : addRipple initManager (1/2) (1/2) 0 = initManager := by
    rw [addRipple, if_pos (by norm_num [initManager, minRippleInterval])]
  rw [h0, update_activeRippleCount,
    show initManager.ripples = List.replicate 128 ⟨0, 0, 0, 0, false⟩ from rfl,
    tickPass_replicate_inactive _ _ _ rfl]
  rfl

/-- Claim C5 (amended): the first insert must come at least
`minRippleInterval` after the constructor's `lastRippleTime = 0`, so the
scenario is shifted by 25 ms: inserting at `(0.5, 0.5)` at `t = 25` ms and
ticking at 25 ms yields exactly one active record with strength 1 and
position `(0.5, 0.5)`; a further tick at age `maxAge` (timestamp 2025 ms)
deactivates it and reports `activeCount = 0`. -/
theorem claim5_single_ripple_lifecycle :
    (update (addRipple initManager (1/2) (1/2) 25) 25).activeRippleCount = 1 ∧
    (update (addRipple initManager (1/2) (1/2) 25) 25).rippleData.head? =
      some ⟨(1/2, 1/2), 1, 25 / 1000⟩ ∧
    (update (update (addRipple initManager (1/2) (1/2) 25) 25) 2025).activeRippleCount = 0 ∧
    ((update (update (addRipple initManager (1/2) (1/2) 25) 25) 2025).ripples.head?.map
      Ripple.active) = some false := by
  have hpool : (addRipple initManager (1/2) (1/2) 25).ripples =
      ⟨1/2, 1/2, 25 / 1000, 1, true⟩ :: List.replicate 127 ⟨0, 0, 0, 0, false⟩ := by
    rw [addRipple_accepted _ _ _ _ (by norm_num [initManager, minRippleInterval])]
    show (List.replicate 128 (⟨0, 0, 0, 0, false⟩ : Ripple)).set 0 _ = _
    rw [show (128 : ℕ) = 127 + 1 from rfl, List.replicate_succ, List.set_cons_zero]
  have hstep : stepRipple (25 / 1000) ⟨1/2, 1/2, 25 / 1000, 1, true⟩ =
      (⟨1/2, 1/2, 25 / 1000, 1, true⟩, some ⟨(1/2, 1/2), 1, 25 / 1000⟩) := by
    rw [stepRipple, if_neg (by simp), if_neg (by norm_num [maxAge]),
      if_pos (by norm_num [strengthFn, maxAge, strengthThreshold])]
    norm_num [strengthFn, maxAge]
  have htp : tickPass (25 / 1000)
      (⟨1/2, 1/2, 25 / 1000, 1, true⟩ :: List.replicate 127 ⟨0, 0, 0, 0, false⟩) =
      (⟨1/2, 1/2, 25 / 1000, 1, true⟩ :: List.replicate 127 ⟨0, 0, 0, 0, false⟩,
        [⟨(1/2, 1/2), 1, 25 / 1000⟩]) := by
    rw [tickPass, hstep, tickPass_replicate_inactive _ _ _ rfl]
    rfl
  have h1rip : (update (addRipple initManager (1/2) (1/2) 25) 25).ripples =
      ⟨1/2, 1/2, 25 / 1000, 1, true⟩ :: List.replicate 127 ⟨0, 0, 0, 0, false⟩ := by
    rw [update_ripples, hpool, htp]
  have h1count : (update (addRipple initManager (1/2) (1/2) 25) 25).activeRippleCount = 1 := by
    rw [update_activeRippleCount, hpool, htp]
    rfl
  have h1data : (update (addRipple initManager (1/2) (1/2) 25) 25).rippleData =
      ⟨(1/2, 1/2), 1, 25 / 1000⟩ :: List.replicate 127 ⟨(0, 0), 0, 0⟩ := by
    rw [update_rippleData, hpool, htp,
      show (addRipple initManager (1/2) (1/2) 25).rippleData =
          List.replicate 128 ⟨(0, 0), 0, 0⟩ from by
        rw [addRipple_accepted _ _ _ _ (by norm_num [initManager, minRippleInterval])]
        rfl]
    simp [List.drop_replicate, List.map_replicate, zeroStrength]
  have hstep2 : stepRipple (2025 / 1000) ⟨1/2, 1/2, 25 / 1000, 1, true⟩ =
      (⟨1/2, 1/2, 25 / 1000, 0, false⟩, none) := by
    rw [stepRipple, if_neg (by simp), if_pos (by norm_num [maxAge])]
  have htp2 : tickPass (2025 / 1000)
      (⟨1/2, 1/2, 25 / 1000, 1, true⟩ :: List.replicate 127 ⟨0, 0, 0, 0, false⟩) =
      (⟨1/2, 1/2, 25 / 1000, 0, false⟩ :: List.replicate 127 ⟨0, 0, 0, 0, false⟩,
        []) := by
    rw [tickPass, hstep2, tickPass_replicate_inactive _ _ _ rfl]
    rfl
  refine ⟨h1count, ?_, ?_, ?_⟩
  · rw [h1data]
    rfl
  · rw [update_activeRippleCount, h1rip, htp2]
    rfl
  · rw [update_ripples, h1rip, htp2]
    rfl

theorem smoothstep_nonneg (e0 e1 x : ℚ) : 0 ≤ smoothstep e0 e1 x := by
  rw [smoothstep]
  set t := clampQ ((x - e0) / (e1 - e0)) 0 1 with ht
  have ht0 : 0 ≤ t := le_min (le_max_right _ 0) zero_le_one
  have ht1 : t ≤ 1 := min_le_right _ 1
  have h3 : 0 ≤ 3 - 2 * t := by linarith
  exact mul_nonneg (mul_nonneg ht0 ht0) h3

theorem smoothstep_le_one (e0 e1 x : ℚ) : smoothstep e0 e1 x ≤ 1 := by
  rw [smoothstep]
  set t := clampQ ((x - e0) / (e1 - e0)) 0 1 with ht
  have ht0 : 0 ≤ t := le_min (le_max_right _ 0) zero_le_one
  have ht1 : t ≤ 1 := min_le_right _ 1
  nlinarith [mul_nonneg (sq_nonneg (1 - t)) (by linarith : (0:ℚ) ≤ 2 * t + 1)]

/-- Claim C7: a ripple contributes exactly 0 whenever the aspect-corrected
distance exceeds `radius(age)` or falls below `MIN_RIPPLE_RADIUS`, or the
strength is nonpositive; and whenever the strength lies in `[0, 1]`, the
contribution's magnitude is bounded by `RIPPLE_AMPLITUDE` — for any GPU
`sin` bounded by 1 in magnitude and any GPU `exp` mapping nonpositive
arguments into `[0, 1]`. -/
theorem claim7_ripple_contribution_bounds (sinF expF sqrtF : ℚ → ℚ)
    (hsin : ∀ q, |sinF q| ≤ 1) (hexp : ∀ q, q ≤ 0 → 0 ≤ expF q ∧ expF q ≤ 1)
    (time aspect : ℚ) (uv : ℚ × ℚ) (ripple : RippleData) :
    ((rippleRadius time ripple.startTime < rippleDist sqrtF aspect uv ripple.position ∨
      rippleDist sqrtF aspect uv ripple.position < MIN_RIPPLE_RADIUS ∨
      ripple.strength ≤ 0) →
      calculateRipple sinF expF sqrtF time aspect uv ripple = 0) ∧
    (0 ≤ ripple.strength → ripple.strength ≤ 1 →
      |calculateRipple sinF expF sqrtF time aspect uv ripple| ≤ RIPPLE_AMPLITUDE) := by
  constructor
  · intro h
    simp only [calculateRipple]
    rw [if_pos h]
  · intro h0 h1
    by_cases hg : rippleRadius time ripple.startTime <
        rippleDist sqrtF aspect uv ripple.position ∨
        rippleDist sqrtF aspect uv ripple.position < MIN_RIPPLE_RADIUS ∨
        ripple.strength ≤ 0
    · simp only [calculateRipple]
      rw [if_pos hg]
      norm_num [RIPPLE_AMPLITUDE]
    · simp only [calculateRipple]
      rw [if_neg hg]
      push_neg at hg
      obtain ⟨hg1, hg2, hg3⟩ := hg
      set d := rippleDist sqrtF aspect uv ripple.position with hd
      set rad := rippleRadius time ripple.startTime with hrad
      have hdpos : 0 ≤ d := le_trans (by norm_num [MIN_RIPPLE_RADIUS]) hg2
      have hexparg : -d * RIPPLE_EDGE_SHARPNESS ≤ 0 := by
        rw [RIPPLE_EDGE_SHARPNESS]; linarith
      obtain ⟨he0, he1⟩ := hexp _ hexparg
      have hE0 : 0 ≤ 1 - smoothstep (rad * 0.7) rad d := by
        have := smoothstep_le_one (rad * 0.7) rad d; linarith
      have hE1 : 1 - smoothstep (rad * 0.7) rad d ≤ 1 := by
        have := smoothstep_nonneg (rad * 0.7) rad d; linarith
      have hS0 : 0 ≤ smoothstep MIN_RIPPLE_RADIUS (MIN_RIPPLE_RADIUS * 2) d :=
        smoothstep_nonneg _ _ _
      have hS1 : smoothstep MIN_RIPPLE_RADIUS (MIN_RIPPLE_RADIUS * 2) d ≤ 1 :=
        smoothstep_le_one _ _ _
      have hA0 : (0:ℚ) ≤ RIPPLE_AMPLITUDE := by norm_num [RIPPLE_AMPLITUDE]
      set ph := ((d - MIN_RIPPLE_RADIUS) / (rad - MIN_RIPPLE_RADIUS) * 2 -
        (time - ripple.startTime) * 2) * PI with hph
      rw [abs_mul, abs_mul, abs_mul, abs_mul, abs_mul, abs_of_nonneg h0,
        abs_of_nonneg hA0, abs_of_nonneg hE0, abs_of_nonneg hS0, abs_of_nonneg he0]
      have hB0 : 0 ≤ |sinF ph| * ripple.strength := mul_nonneg (abs_nonneg _) h0
      have hB1 : |sinF ph| * ripple.strength ≤ 1 := mul_le_one₀ (hsin ph) h0 h1
      have hC : |sinF ph| * ripple.strength * RIPPLE_AMPLITUDE ≤ RIPPLE_AMPLITUDE :=
        mul_le_of_le_one_left hA0 hB1
      have hC0 : 0 ≤ |sinF ph| * ripple.strength * RIPPLE_AMPLITUDE :=
        mul_nonneg hB0 hA0
      have hD : |sinF ph| * ripple.strength * RIPPLE_AMPLITUDE *
          (1 - smoothstep (rad * 0.7) rad d) ≤ RIPPLE_AMPLITUDE :=
        le_trans (mul_le_of_le_one_right hC0 hE1) hC
      have hD0 : 0 ≤ |sinF ph| * ripple.strength * RIPPLE_AMPLITUDE *
          (1 - smoothstep (rad * 0.7) rad d) := mul_nonneg hC0 hE0
      have hF : |sinF ph| * ripple.strength * RIPPLE_AMPLITUDE *
          (1 - smoothstep (rad * 0.7) rad d) *
          smoothstep MIN_RIPPLE_RADIUS (MIN_RIPPLE_RADIUS * 2) d ≤ RIPPLE_AMPLITUDE :=
        le_trans (mul_le_of_le_one_right hD0 hS1) hD
      have hF0 : 0 ≤ |sinF ph| * ripple.strength * RIPPLE_AMPLITUDE *
          (1 - smoothstep (rad * 0.7) rad d) *
          smoothstep MIN_RIPPLE_RADIUS (MIN_RIPPLE_RADIUS * 2) d := mul_nonneg hD0 hS0
      exact le_trans (mul_le_of_le_one_right hF0 he1) hF

/-- Witness for claim C7: with `sin`, `exp`, `sqrt` instantiated by bounded
concrete functions, the amplitude bound at a ripple of strength 1/2, and the
early-exit at a ripple of strength -1. -/
theorem claim7_witness :
    |calculateRipple (fun _ => 0) (fun _ => 0) (fun _ => 0) 0 1 (0, 0)
      ⟨(0, 0), 1/2, 0⟩| ≤ RIPPLE_AMPLITUDE ∧
    calculateRipple (fun _ => 0) (fun _ => 0) (fun _ => 0) 0 1 (0, 0)
      ⟨(0, 0), -1, 0⟩ = 0 := by
  have hsin : ∀ q : ℚ, |(fun _ : ℚ => (0:ℚ)) q| ≤ 1 := by intro q; norm_num
  have hexp : ∀ q : ℚ, q ≤ 0 → 0 ≤ (fun _ : ℚ => (0:ℚ)) q ∧
      (fun _ : ℚ => (0:ℚ)) q ≤ 1 := by intro q _; norm_num
  constructor
  · exact (claim7_ripple_contribution_bounds (fun _ => 0) (fun _ => 0) (fun _ => 0)
      hsin hexp 0 1 (0, 0) ⟨(0, 0), 1/2, 0⟩).2 (by norm_num) (by norm_num)
  · exact (claim7_ripple_contribution_bounds (fun _ => 0) (fun _ => 0) (fun _ => 0)
      hsin hexp 0 1 (0, 0) ⟨(0, 0), -1, 0⟩).1 (Or.inr (Or.inr (by norm_num)))

/-- Claim C8: grid-line intensity is exactly 1 when the distance to the
nearest cell boundary is 0 and exactly 0 at distances at least
`LINE_WIDTH`; a sample whose distorted coordinate lands on a grid-cell
center (`gridUV = (0.5, 0.5)`, e.g. distorted UV `(1/40, 1/30)`) has
`distToLine = 0.5`, intensity 0, and the pure background color. -/
theorem claim8_grid_line_intensity :
    (∀ duv : ℚ × ℚ, distToLine duv = 0 → lineIntensity duv = 1) ∧
    (∀ duv : ℚ × ℚ, LINE_WIDTH ≤ distToLine duv → lineIntensity duv = 0) ∧
    distToLine (1/40, 1/30) = 1/2 ∧ lineIntensity (1/40, 1/30) = 0 ∧
    finalColor (1/40, 1/30) = backgroundColor := by
  have hzero : ∀ duv : ℚ × ℚ, LINE_WIDTH ≤ distToLine duv → lineIntensity duv = 0 := by
    intro duv h
    rw [lineIntensity, smoothstep, clampQ]
    have hnum : 0 ≤ distToLine duv - LINE_WIDTH := by linarith
    have ht : (distToLine duv - LINE_WIDTH) / (0 - LINE_WIDTH) ≤ 0 :=
      div_nonpos_of_nonneg_of_nonpos hnum (by norm_num [LINE_WIDTH])
    rw [max_eq_right ht, min_eq_left zero_le_one]
    ring
  have hdist : distToLine (1/40, 1/30) = 1/2 := by
    norm_num [distToLine, gridUV, fract, GRID_HORIZONTAL_SIZE, GRID_VERTICAL_SIZE,
      min_def]
  have hline : lineIntensity (1/40, 1/30) = 0 :=
    hzero _ (by rw [hdist]; norm_num [LINE_WIDTH])
  refine ⟨?_, hzero, hdist, hline, ?_⟩
  · intro duv h
    rw [lineIntensity, h, smoothstep, clampQ]
    norm_num [LINE_WIDTH, max_def, min_def]
  · rw [finalColor, hline]
    norm_num [mixQ, backgroundColor, lineColor]

/-- Witness for claim C8: the boundary case at a distorted coordinate lying
exactly on a grid line, and the far case at the cell center. -/
theorem claim8_witness :
    lineIntensity (0, 0) = 1 ∧ lineIntensity (1/40, 1/30) = 0 := by
  constructor
  · exact claim8_grid_line_intensity.1 (0, 0)
      (by norm_num [distToLine, gridUV, fract, GRID_HORIZONTAL_SIZE,
        GRID_VERTICAL_SIZE, min_def])
  · exact claim8_grid_line_intensity.2.1 (1/40, 1/30)
      (by norm_num [distToLine, gridUV, fract, GRID_HORIZONTAL_SIZE,
        GRID_VERTICAL_SIZE, min_def, LINE_WIDTH])

/-- Counterexample to claim C9 as stated: at time 0.2 s a ripple born at 0
has `radius = min(0.2 * 0.1, 0.3) = 0.02 = MIN_RIPPLE_RADIUS`; a sample at
aspect-corrected distance exactly 0.02 from its center (here `uv = (1/2,
1/2)`, center `(13/25, 1/2)`, aspect 1, where the true square root of the
squared distance `1/2500` is exactly `1/50`) passes the early-exit guard,
yet the normalization divisor `radius - MIN_RIPPLE_RADIUS` is 0 — the guard
does not exclude the boundary case `radius = dist = MIN_RIPPLE_RADIUS`. -/
theorem claim9_counterexample :
    ¬(rippleRadius (1/5) 0 < rippleDist (fun _ => 1/50) 1 (1/2, 1/2) (13/25, 1/2) ∨
      rippleDist (fun _ => 1/50) 1 (1/2, 1/2) (13/25, 1/2) < MIN_RIPPLE_RADIUS ∨
      (1 : ℚ) ≤ 0) ∧
    rippleRadius (1/5) 0 - MIN_RIPPLE_RADIUS = 0 := by
  have hdist : rippleDist (fun _ => 1/50) 1 (1/2, 1/2) (13/25, 1/2) = 1/50 := rfl
  have hrad : rippleRadius (1/5) 0 = 1/50 := by
    rw [rippleRadius, RIPPLE_SPEED, MAX_RIPPLE_RADIUS]
    norm_num [min_def]
  constructor
  · rw [hdist, hrad]
    norm_num [MIN_RIPPLE_RADIUS]
  · rw [hrad, MIN_RIPPLE_RADIUS]
    norm_num

/-- Claim C9 (amended): if the early-exit guard of `calculateRipple` does
not fire then `MIN_RIPPLE_RADIUS ≤ radius`, and the normalization divisor
`radius - MIN_RIPPLE_RADIUS` is nonzero whenever `radius >
MIN_RIPPLE_RADIUS`; in the remaining boundary case `radius =
MIN_RIPPLE_RADIUS` (which forces `dist = MIN_RIPPLE_RADIUS`) the divisor is
zero, so the guard alone does not rule out division by zero. -/
theorem claim9_normalization_divisor (sqrtF : ℚ → ℚ) (aspect time : ℚ)
    (uv pos : ℚ × ℚ) (strength startTime : ℚ)
    (h : ¬(rippleRadius time startTime < rippleDist sqrtF aspect uv pos ∨
        rippleDist sqrtF aspect uv pos < MIN_RIPPLE_RADIUS ∨ strength ≤ 0)) :
    MIN_RIPPLE_RADIUS ≤ rippleRadius time startTime ∧
    (MIN_RIPPLE_RADIUS < rippleRadius time startTime →
      rippleRadius time startTime - MIN_RIPPLE_RADIUS ≠ 0) ∧
    (rippleRadius time startTime = MIN_RIPPLE_RADIUS →
      rippleDist sqrtF aspect uv pos = MIN_RIPPLE_RADIUS) := by
  push_neg at h
  obtain ⟨h1, h2, _⟩ := h
  exact ⟨le_trans h2 h1, fun hlt => sub_ne_zero.mpr (ne_of_gt hlt),
    fun heq => le_antisymm (heq ▸ h1) h2⟩

/-- Witness for claim C9 (amended): a guard-passing configuration with
`radius = MAX_RIPPLE_RADIUS > MIN_RIPPLE_RADIUS`. -/
theorem claim9_witness :
    MIN_RIPPLE_RADIUS ≤ rippleRadius 4 0 ∧
    rippleRadius 4 0 - MIN_RIPPLE_RADIUS ≠ 0 := by
  have h := claim9_normalization_divisor (fun _ => 1/10) 1 4 (0, 0) (0, 0) 1 0
    (by norm_num [rippleRadius, rippleDist, RIPPLE_SPEED, MAX_RIPPLE_RADIUS,
      MIN_RIPPLE_RADIUS, min_def])
  exact ⟨h.1, h.2.1 (by norm_num [rippleRadius, RIPPLE_SPEED, MAX_RIPPLE_RADIUS,
    MIN_RIPPLE_RADIUS, min_def])⟩

end SpacetimeRipple
